import Mathlib

/-!
# Verification of the giveaway subsystem of the Ctoc-check bot

Shallow embedding of the giveaway core: the eligibility evaluator
(`check_eligibility` in `src/cogs/giveaway.py`), the entry ledger
(`add_entry` in `src/database_manager.py`), the draw engine and lifecycle
(`end_giveaway`, `start_giveaway`, `reroll_giveaway` in
`src/cogs/giveaway.py`), and the winner store (`add_winner`,
`get_winners` in `src/database_manager.py`).

Modelling conventions:
* Timestamps are `Int` seconds; Python's `timedelta.days` is floor
  division by 86400, i.e. `Int.fdiv`.
* `discord.Member.joined_at` is optional, so it is an `Option Int`; the
  Python expression `datetime.utcnow() - user.joined_at` raises
  `TypeError` when it is `None`, which the embedding renders as
  `Except.error`.
* Python truthiness on the optional integer rule fields (`None` and `0`
  are falsy) is `truthyOpt`; truthiness on lists is emptiness.
* `random.choices(pool, weights, k=1)` is abstracted by an oracle
  `pick : Nat -> Nat` giving, per loop iteration, an index into the
  current pool (taken modulo the pool length).  Universally quantified
  theorems over `pick` cover every behaviour the sampler can exhibit;
  counterexample runs use all-weight-one pools, on which every index is
  a reachable outcome of `random.choices`.
* The SQLite tables `giveaways`, `giveaway_entries` and
  `giveaway_winners` are lists of rows inside `DB`; columns never read
  by the modelled operations (timestamps, message ids, templates, logs)
  are omitted.
-/

/-- A guild member as seen by `check_eligibility`: id, role ids,
account-creation time, and the optional server-join time
(`discord.Member.joined_at` can be `None`). -/
structure Member where
  id : Nat
  roles : List Nat
  created_at : Int
  joined_at : Option Int
deriving DecidableEq

/-- A row of the `giveaways` table, restricted to the columns the
giveaway cog reads.  JSON list columns are lists; nullable integer rule
columns are `Option Nat`. -/
structure Giveaway where
  giveaway_id : String
  guild_id : Nat
  channel_id : Nat
  creator_id : Nat
  title : String
  prizes : List String
  winner_count : Nat
  status : String
  requires_roles : List Nat
  exclude_roles : List Nat
  min_account_age_days : Option Nat
  min_server_join_days : Option Nat
  whitelist_users : List Nat
  blacklist_users : List Nat
deriving DecidableEq

/-- A row of the `giveaway_entries` table (`UNIQUE(giveaway_id, user_id)`;
`entry_count` is the weight). -/
structure EntryRow where
  giveaway_id : String
  user_id : Nat
  entry_count : Nat
deriving DecidableEq

/-- A row of the `giveaway_winners` table, restricted to the columns
written by `add_winner`. -/
structure WinnerRow where
  giveaway_id : String
  user_id : Nat
  prize : String
  position : Nat
deriving DecidableEq

/-- Python truthiness of a nullable integer column: `None` and `0` are
falsy. -/
def truthyOpt (o : Option Nat) : Bool :=
  match o with
  | none => false
  | some n => n != 0

/-- `(b - a).days` for Python datetimes held as `Int` seconds:
`timedelta.days` floors, hence `Int.fdiv`. -/
def daysBetween (a b : Int) : Int :=
  Int.fdiv (b - a) 86400

/-- `GiveawayCog.check_eligibility` (src/cogs/giveaway.py, lines
120-156), for a candidate already resolved to a guild member.  The
checks run in source order: whitelist, blacklist, required roles,
excluded roles, account age, server-membership age; the first failing
check returns `(False, reason)`.  When `min_server_join_days` is truthy
and the member has no `joined_at`, the subtraction
`datetime.utcnow() - user.joined_at` raises `TypeError`, modelled as
`Except.error`. -/
def check_eligibility (now : Int) (u : Member) (g : Giveaway) :
    Except String (Bool × String) :=
  if g.whitelist_users ≠ [] ∧ u.id ∉ g.whitelist_users then
    .ok (false, "You are not whitelisted for this giveaway.")
  else if g.blacklist_users ≠ [] ∧ u.id ∈ g.blacklist_users then
    .ok (false, "You are blacklisted from this giveaway.")
  else if g.requires_roles ≠ [] ∧ ¬ ∃ r ∈ g.requires_roles, r ∈ u.roles then
    .ok (false, "You do not have a required role.")
  else if g.exclude_roles ≠ [] ∧ ∃ r ∈ g.exclude_roles, r ∈ u.roles then
    .ok (false, "You have an excluded role.")
  else if truthyOpt g.min_account_age_days ∧
      daysBetween u.created_at now < (g.min_account_age_days.getD 0 : Int) then
    .ok (false, "Your account is too new (requires " ++
      toString (g.min_account_age_days.getD 0) ++ " days).")
  else if truthyOpt g.min_server_join_days then
    match u.joined_at with
    | none => .error "TypeError: unsupported operand type(s) for -"
    | some j =>
      if daysBetween j now < (g.min_server_join_days.getD 0 : Int) then
        .ok (false, "You haven't been in this server long enough (requires " ++
          toString (g.min_server_join_days.getD 0) ++ " days).")
      else
        .ok (true, "")
  else
    .ok (true, "")

/-- A giveaway whose only configured rule is a 5-member blacklist plus a
non-empty whitelist not containing 5; used to probe the check order. -/
def cg4 : Giveaway :=
  { giveaway_id := "g4", guild_id := 1, channel_id := 1, creator_id := 1
    title := "T", prizes := ["T"], winner_count := 1, status := "active"
    requires_roles := [], exclude_roles := []
    min_account_age_days := none, min_server_join_days := none
    whitelist_users := [6], blacklist_users := [5] }

/-- A member with id 5, no roles, with a join timestamp. -/
def cu4 : Member :=
  { id := 5, roles := [], created_at := 0, joined_at := some 0 }

/-- A giveaway whose only configured rule is a minimum server-membership
age of 7 days. -/
def cg5 : Giveaway :=
  { giveaway_id := "g5", guild_id := 1, channel_id := 1, creator_id := 1
    title := "T", prizes := ["T"], winner_count := 1, status := "active"
    requires_roles := [], exclude_roles := []
    min_account_age_days := none, min_server_join_days := some 7
    whitelist_users := [], blacklist_users := [] }

/-- A member with id 5 and no recorded server-join timestamp. -/
def cu5 : Member :=
  { id := 5, roles := [], created_at := 0, joined_at := none }

/-- C4 counterexample: a candidate on the blacklist, with a non-empty
whitelist configured that does not contain them, receives the
*whitelist* reason — the blacklist check does not fire first, because
the source checks the whitelist before the blacklist. -/
theorem blacklisted_user_gets_whitelist_reason :
    cu4.id ∈ cg4.blacklist_users ∧
    check_eligibility 0 cu4 cg4 =
      Except.ok (false, "You are not whitelisted for this giveaway.") ∧
    (Except.ok (false, "You are not whitelisted for this giveaway.") :
        Except String (Bool × String)) ≠
      Except.ok (false, "You are blacklisted from this giveaway.") := by
  refine ⟨by decide, by rfl, ?_⟩
  intro h
  simp at h

/-- C4 amended: the evaluator checks the whitelist first and the
blacklist second.  A blacklisted candidate receives the blacklist
reason exactly when the whitelist check passes (whitelist empty or
candidate whitelisted); when the whitelist is non-empty and the
candidate is absent, the whitelist reason is returned instead. -/
theorem eligibility_whitelist_before_blacklist (now : Int) (u : Member)
    (g : Giveaway) (hb : u.id ∈ g.blacklist_users) :
    ((g.whitelist_users = [] ∨ u.id ∈ g.whitelist_users) →
      check_eligibility now u g =
        Except.ok (false, "You are blacklisted from this giveaway.")) ∧
    (g.whitelist_users ≠ [] → u.id ∉ g.whitelist_users →
      check_eligibility now u g =
        Except.ok (false, "You are not whitelisted for this giveaway.")) := by
  constructor
  · intro hw
    unfold check_eligibility
    rw [if_neg, if_pos ⟨List.ne_nil_of_mem hb, hb⟩]
    rcases hw with hw | hw
    · simp [hw]
    · simp [hw]
  · intro hne habs
    unfold check_eligibility
    rw [if_pos ⟨hne, habs⟩]

/-- Witness for `eligibility_whitelist_before_blacklist` at a concrete
blacklisted-and-whitelisted member. -/
theorem eligibility_whitelist_before_blacklist_witness :
    check_eligibility 0 cu4
        { cg4 with whitelist_users := [5] } =
      Except.ok (false, "You are blacklisted from this giveaway.") :=
  (eligibility_whitelist_before_blacklist 0 cu4
    { cg4 with whitelist_users := [5] } (by decide)).1 (Or.inr (by decide))

/-- Match on the composite key of the `giveaway_entries` table. -/
def entryMatch (gid : String) (uid : Nat) (e : EntryRow) : Bool :=
  e.giveaway_id == gid && e.user_id == uid

/-- `AdvancedDatabase.add_entry` (src/database_manager.py, lines
265-293): `SELECT` the existing row for `(giveaway_id, user_id)`; if
one exists, `UPDATE` every row with that key to the fetched count plus
`bonus_count` (the `UNIQUE(giveaway_id, user_id)` constraint means at
most one row matches); otherwise `INSERT` a row with count
`bonus_count`. -/
def add_entry (entries : List EntryRow) (gid : String) (uid : Nat)
    (bonus_count : Nat) : List EntryRow :=
  match entries.find? (entryMatch gid uid) with
  | some ex =>
    entries.map fun e =>
      if entryMatch gid uid e then
        { e with entry_count := ex.entry_count + bonus_count }
      else e
  | none => entries ++ [⟨gid, uid, bonus_count⟩]

theorem entryMatch_eq (gid : String) (uid : Nat) (e : EntryRow) :
    entryMatch gid uid e = true ↔ e.giveaway_id = gid ∧ e.user_id = uid := by
  simp [entryMatch]

theorem filter_map_update (entries : List EntryRow) (gid : String) (uid : Nat)
    (c : Nat) :
    (entries.map fun e =>
        if entryMatch gid uid e then { e with entry_count := c } else e).filter
        (entryMatch gid uid) =
      (entries.filter (entryMatch gid uid)).map
        fun e => { e with entry_count := c } := by
  induction entries with
  | nil => rfl
  | cons a l ih =>
    by_cases h : entryMatch gid uid a = true
    · have hfa : entryMatch gid uid ({ a with entry_count := c }) = true := h
      simp only [List.map_cons, List.filter_cons, h, if_pos, hfa, ih]
    · simp only [List.map_cons, List.filter_cons, h, if_neg, ih,
        Bool.false_eq_true, ite_false]

theorem filter_singleton_of_find (entries : List EntryRow) (gid : String)
    (uid : Nat) (ex : EntryRow)
    (hwf : (entries.filter (entryMatch gid uid)).length ≤ 1)
    (hfind : entries.find? (entryMatch gid uid) = some ex) :
    entries.filter (entryMatch gid uid) = [ex] := by
  have hmem : ex ∈ entries.filter (entryMatch gid uid) :=
    List.mem_filter.mpr ⟨List.mem_of_find?_eq_some hfind,
      List.find?_some hfind⟩
  match hl : entries.filter (entryMatch gid uid) with
  | [] => rw [hl] at hmem; cases hmem
  | [a] =>
    rw [hl] at hmem
    rcases List.mem_singleton.mp hmem with rfl
    rfl
  | a :: b :: t =>
    rw [hl] at hwf
    simp at hwf

theorem add_entry_find_some (entries : List EntryRow) (gid : String)
    (uid : Nat) (b : Nat) (ex : EntryRow)
    (hfind : entries.find? (entryMatch gid uid) = some ex) :
    add_entry entries gid uid b =
      entries.map fun e =>
        if entryMatch gid uid e then
          { e with entry_count := ex.entry_count + b }
        else e := by
  simp only [add_entry, hfind]

theorem add_entry_find_none (entries : List EntryRow) (gid : String)
    (uid : Nat) (b : Nat)
    (hfind : entries.find? (entryMatch gid uid) = none) :
    add_entry entries gid uid b = entries ++ [⟨gid, uid, b⟩] := by
  simp only [add_entry, hfind]

/-- C6: for every entry table satisfying the `UNIQUE(giveaway_id,
user_id)` invariant (at most one row per key): (a) if the participant
already has an Entry row, `add_entry` leaves the row count unchanged
and the single matching row's weight becomes the old weight plus the
bonus; (b) if not, exactly the new row with weight `bonus_count` is
appended; (c) hence two calls with bonus 1 starting from a state with
no matching row leave exactly one matching row, of weight 2. -/
theorem add_entry_upsert_accumulates (entries : List EntryRow)
    (gid : String) (uid : Nat) (b : Nat)
    (hwf : (entries.filter (entryMatch gid uid)).length ≤ 1) :
    (∀ ex, entries.find? (entryMatch gid uid) = some ex →
      (add_entry entries gid uid b).filter (entryMatch gid uid) =
          [⟨gid, uid, ex.entry_count + b⟩] ∧
      (add_entry entries gid uid b).length = entries.length) ∧
    (entries.find? (entryMatch gid uid) = none →
      add_entry entries gid uid b = entries ++ [⟨gid, uid, b⟩]) ∧
    (entries.find? (entryMatch gid uid) = none →
      (add_entry (add_entry entries gid uid 1) gid uid 1).filter
          (entryMatch gid uid) = [⟨gid, uid, 2⟩]) := by
  refine ⟨?_, ?_, ?_⟩
  · intro ex hfind
    constructor
    · rw [add_entry_find_some entries gid uid b ex hfind]
      rw [filter_map_update entries gid uid _]
      rw [filter_singleton_of_find entries gid uid ex hwf hfind]
      have hm := (entryMatch_eq gid uid ex).mp (List.find?_some hfind)
      simp [List.map_singleton]
      exact ⟨hm.1, hm.2⟩
    · rw [add_entry_find_some entries gid uid b ex hfind]
      exact List.length_map _ _
  · intro hfind
    exact add_entry_find_none entries gid uid b hfind
  · intro hfind
    have h1 : add_entry entries gid uid 1 = entries ++ [⟨gid, uid, 1⟩] :=
      add_entry_find_none entries gid uid 1 hfind
    have hfilter1 : (entries ++ [(⟨gid, uid, 1⟩ : EntryRow)]).filter
        (entryMatch gid uid) =
        entries.filter (entryMatch gid uid) ++ [⟨gid, uid, 1⟩] := by
      rw [List.filter_append]
      simp [entryMatch]
    have hfnone : entries.filter (entryMatch gid uid) = [] := by
      apply List.filter_eq_nil_iff.mpr
      intro a ha hmatch
      exact List.find?_eq_none.mp hfind a ha hmatch
    have hfind2 : (add_entry entries gid uid 1).find? (entryMatch gid uid) =
        some ⟨gid, uid, 1⟩ := by
      rw [h1, List.find?_append, hfind]
      simp [entryMatch]
    have hwf2 : ((add_entry entries gid uid 1).filter
        (entryMatch gid uid)).length ≤ 1 := by
      rw [h1, hfilter1, hfnone]
      simp
    rw [add_entry_find_some _ gid uid 1 _ hfind2]
    rw [filter_map_update _ gid uid _]
    rw [filter_singleton_of_find _ gid uid _ hwf2 hfind2]
    simp

/-- Witness for `add_entry_upsert_accumulates`: two weight-1 entries
for the same participant starting from an empty table leave exactly one
row, of weight 2. -/
theorem add_entry_upsert_accumulates_witness :
    (add_entry (add_entry [] "g" 1 1) "g" 1 1).filter (entryMatch "g" 1) =
      [⟨"g", 1, 2⟩] :=
  (add_entry_upsert_accumulates [] "g" 1 1 (by decide)).2.2 (by rfl)

/-- C5: evaluating a candidate with no recorded server-join timestamp
against a giveaway with a configured minimum membership age raises
(`datetime.utcnow() - user.joined_at` with `joined_at = None`), rather
than skipping the check. -/
theorem eligibility_missing_join_raises :
    check_eligibility 100 cu5 cg5 =
      Except.error "TypeError: unsupported operand type(s) for -" := by
  rfl

/-- The modelled slice of `AdvancedDatabase`: the `giveaways`,
`giveaway_entries` and `giveaway_winners` tables as row lists. -/
structure DB where
  giveaways : List Giveaway
  entries : List EntryRow
  winners : List WinnerRow
deriving DecidableEq

/-- `AdvancedDatabase.get_giveaway`: `SELECT * FROM giveaways WHERE
giveaway_id = ?` (the column is `UNIQUE`, so first match). -/
def get_giveaway (db : DB) (gid : String) : Option Giveaway :=
  db.giveaways.find? fun g => g.giveaway_id == gid

/-- `AdvancedDatabase.get_entries`: all entry rows of one giveaway. -/
def get_entries (db : DB) (gid : String) : List EntryRow :=
  db.entries.filter fun e => e.giveaway_id == gid

/-- `AdvancedDatabase.get_winners`: all winner rows of one giveaway
(the `ORDER BY position` clause is irrelevant here because `add_winner`
inserts in increasing-position order within a draw). -/
def get_winners (db : DB) (gid : String) : List WinnerRow :=
  db.winners.filter fun w => w.giveaway_id == gid

/-- The `update_giveaway(giveaway_id, status='ended', ended_at=...)`
call inside `end_giveaway`: only the `status` column matters to the
modelled operations (`ended_at`/`updated_at` timestamps are never read
by them). -/
def update_status_ended (db : DB) (gid : String) : DB :=
  { db with giveaways := db.giveaways.map fun g =>
      if g.giveaway_id == gid then { g with status := "ended" } else g }

/-- State threaded through the winner-selection loop of `end_giveaway`:
`picked` records, in order, the user id returned by `random.choices` at
each iteration (before any eligibility filtering); `selected` is the
`selected_users` set; `winnerRows` are the rows inserted by
`add_winner`, in insertion order; `aborted` is set when an exception
escapes the loop body (it propagates to the `try/except` wrapping
`end_giveaway`, after which no further row is inserted). -/
structure DrawState where
  picked : List Nat
  selected : List Nat
  winnerRows : List WinnerRow
  aborted : Bool
deriving DecidableEq

/-- Placeholder row for `List.getD`; never returned on the nonempty
pools the loop uses it on. -/
def defaultEntry : EntryRow := ⟨"", 0, 0⟩

/-- The prize expression of `end_giveaway`:
`giveaway['prizes'][position] if position < len(giveaway['prizes'])
else giveaway['prizes'][-1]`; `none` models the `IndexError` that
`prizes[-1]` raises on an empty list. -/
def drawPrize (prizes : List String) (position : Nat) : Option String :=
  if position < prizes.length then some (prizes.getD position "")
  else prizes.getLast?

/-- The winner-selection loop of `GiveawayCog.end_giveaway`
(src/cogs/giveaway.py, lines 241-278).  Arguments after the fixed data:
the loop variable `position`, the remaining iteration count (the loop
runs `min(winner_count, #distinct entrants)` times in total), and the
loop state.  Each iteration: filter the pool to entries whose user is
not in `selected_users`; stop if empty; let `random.choices` (the
oracle `pick`) select one entry; compute the positional prize; resolve
the member; re-check eligibility; only an accepted selection inserts a
winner row and extends `selected_users`. -/
def drawGo (g : Giveaway) (gid : String) (entries : List EntryRow)
    (members : Nat → Option Member) (now : Int) (pick : Nat → Nat) :
    Nat → Nat → DrawState → DrawState
  | _, 0, st => st
  | position, fuel + 1, st =>
    let pool := entries.filter fun e => !(st.selected.contains e.user_id)
    if pool.isEmpty then st
    else
      let winner_entry := pool.getD (pick position % pool.length) defaultEntry
      let winner_id := winner_entry.user_id
      let st1 := { st with picked := st.picked ++ [winner_id] }
      match drawPrize g.prizes position with
      | none => { st1 with aborted := true }
      | some prize =>
        match members winner_id with
        | none => drawGo g gid entries members now pick (position + 1) fuel st1
        | some u =>
          match check_eligibility now u g with
          | .error _ => { st1 with aborted := true }
          | .ok (elig, _) =>
            if elig then
              drawGo g gid entries members now pick (position + 1) fuel
                { st1 with
                  selected := winner_id :: st1.selected
                  winnerRows := st1.winnerRows ++
                    [⟨gid, winner_id, prize, position + 1⟩] }
            else
              drawGo g gid entries members now pick (position + 1) fuel st1

/-- The loop state at entry: `winners = []`, `selected_users = set()`. -/
def initDraw : DrawState := ⟨[], [], [], false⟩

/-- `GiveawayCog.end_giveaway` (src/cogs/giveaway.py, lines 214-304),
restricted to its persistent effects: return unchanged if the giveaway
is unknown or already `ended`; otherwise set status to `ended`, read
the entries, and, when some exist, run the selection loop
`min(winner_count, #distinct entrant ids)` times and append the
inserted winner rows.  Announcements and DMs have no store effect. -/
def end_giveaway (db : DB) (gid : String) (members : Nat → Option Member)
    (now : Int) (pick : Nat → Nat) : DB :=
  match get_giveaway db gid with
  | none => db
  | some g =>
    if g.status == "ended" then db
    else
      let db1 := update_status_ended db gid
      let entries := get_entries db1 gid
      if entries.isEmpty then db1
      else
        let target :=
          min g.winner_count ((entries.map fun e => e.user_id).dedup).length
        let res := drawGo g gid entries members now pick 0 target initDraw
        { db1 with winners := db1.winners ++ res.winnerRows }

/-- Outcome reported to the operator by the `start` command. -/
inductive StartOutcome where
  | rejected : String → StartOutcome
  | started : StartOutcome
deriving DecidableEq

/-- The giveaway row that `start_giveaway` persists through
`create_giveaway`: prizes are `[title] * winner_count`, status defaults
to `active`, and no eligibility rule field is passed (so the JSON list
columns default to `[]` and the integer rule columns to `NULL`). -/
def start_stored (gid : String) (guild ch creator : Nat) (title : String)
    (wc : Nat) : Giveaway :=
  { giveaway_id := gid, guild_id := guild, channel_id := ch
    creator_id := creator, title := title
    prizes := List.replicate wc title, winner_count := wc
    status := "active", requires_roles := [], exclude_roles := []
    min_account_age_days := none, min_server_join_days := none
    whitelist_users := [], blacklist_users := [] }

/-- `GiveawayCog.start_giveaway` (src/cogs/giveaway.py, lines 315-349):
validations run in source order (missing/empty title, duration outside
[1, 10080], winner count outside [1, 10]), each returning before any
store write; only when all pass is the giveaway persisted via
`create_giveaway`.  Messages are the user-facing reasons without the
leading marker emoji. -/
def start_giveaway (db : DB) (gid : String) (guild ch creator : Nat)
    (duration_minutes winner_count : Int) (title : Option String) :
    DB × StartOutcome :=
  if title = none ∨ title = some "" then
    (db, .rejected "Please provide a title for the giveaway.")
  else if duration_minutes < 1 ∨ duration_minutes > 10080 then
    (db, .rejected "Duration must be between 1 and 10080 minutes.")
  else if winner_count < 1 ∨ winner_count > 10 then
    (db, .rejected "Winner count must be between 1 and 10.")
  else
    ({ db with giveaways := db.giveaways ++
        [start_stored gid guild ch creator (title.getD "") winner_count.toNat] },
      .started)

/-- `GiveawayCog.reroll_giveaway` (src/cogs/giveaway.py, lines
419-463): guards (unknown id, wrong guild, no entries), then fetches
the old winners (the `# Clear old winners` comment — the fetched list
is never used and nothing is deleted), samples one entry from the full
current entry pool via `random.choices`, and only sends a DM and an
announcement.  No winner-store write of any kind occurs: the function
returns the store as it found it, together with the announced user id.
-/
def reroll_giveaway (db : DB) (gid : String) (ctx_guild : Nat)
    (pick : Nat) : DB × Option Nat :=
  match get_giveaway db gid with
  | none => (db, none)
  | some g =>
    if g.guild_id ≠ ctx_guild then (db, none)
    else
      let entries := get_entries db gid
      if entries.isEmpty then (db, none)
      else
        let _old_winners := get_winners db gid
        let eligible_entries := entries
        let winner_entry :=
          eligible_entries.getD (pick % eligible_entries.length) defaultEntry
        (db, some winner_entry.user_id)

/-- C1: `reroll_giveaway` never touches the winner store — the prior
Winner rows are not deleted or replaced and the freshly sampled winner
is not inserted; the entire database is returned exactly as it was
found, whatever its contents.  (The source fetches the old winners
under a `# Clear old winners` comment but performs no delete, and never
calls `add_winner`.) -/
theorem reroll_preserves_winner_rows (db : DB) (gid : String)
    (ctx_guild : Nat) (pick : Nat) :
    (reroll_giveaway db gid ctx_guild pick).1 = db ∧
    (reroll_giveaway db gid ctx_guild pick).1.winners = db.winners := by
  have h : (reroll_giveaway db gid ctx_guild pick).1 = db := by
    unfold reroll_giveaway
    cases hg : get_giveaway db gid with
    | none => rfl
    | some g =>
      dsimp only
      split
      · rfl
      · split
        · rfl
        · rfl
  exact ⟨h, by rw [h]⟩

/-- C7: ending a giveaway whose stored status is `ended` is a no-op
decided by that status alone: the store is returned unchanged (no
status write, no draw, no winner rows). -/
theorem end_giveaway_ended_noop (db : DB) (gid : String)
    (members : Nat → Option Member) (now : Int) (pick : Nat → Nat)
    (g : Giveaway) (hget : get_giveaway db gid = some g)
    (hstatus : g.status = "ended") :
    end_giveaway db gid members now pick = db := by
  unfold end_giveaway
  rw [hget]
  simp [hstatus]

/-- An already-ended giveaway row used to exercise the termination
no-op. -/
def gEnded : Giveaway := { cg4 with giveaway_id := "g7", status := "ended" }

/-- A store holding only the already-ended giveaway. -/
def db7 : DB := ⟨[gEnded], [], []⟩

/-- A two-entrant ledger with user 7 blacklisted at draw time: entering
is unrestricted but the draw-time re-check rejects 7. -/
def cg2 : Giveaway :=
  { giveaway_id := "g2", guild_id := 1, channel_id := 1, creator_id := 1
    title := "T", prizes := ["P1", "P2"], winner_count := 2
    status := "active", requires_roles := [], exclude_roles := []
    min_account_age_days := none, min_server_join_days := none
    whitelist_users := [], blacklist_users := [7] }

/-- Weight-1 entries of users 7 and 8 in giveaway `g2`. -/
def entries2 : List EntryRow := [⟨"g2", 7, 1⟩, ⟨"g2", 8, 1⟩]

/-- Guild membership: users 7 and 8 are both present. -/
def members2 : Nat → Option Member := fun uid =>
  if uid == 7 then some ⟨7, [], 0, some 0⟩
  else if uid == 8 then some ⟨8, [], 0, some 0⟩
  else none

/-- Sampling oracle that always returns the first pool element. -/
def pick0 : Nat → Nat := fun _ => 0

/-- Sampling oracle returning the loop index. -/
def pickIdx : Nat → Nat := fun n => n

/-- Witness for `end_giveaway_ended_noop` on the concrete store. -/
theorem end_giveaway_ended_noop_witness :
    end_giveaway db7 "g7" members2 0 pick0 = db7 :=
  end_giveaway_ended_noop db7 "g7" members2 0 pick0 gEnded (by rfl) rfl

/-- C2 counterexample: with entrants 7 (ineligible at draw time) and 8,
winner count 2, and a sampler that always takes the first pool element,
user 7 is selected at iteration 0, discarded as ineligible, *not*
removed from the pool, and selected again at iteration 1 — the
selection sequence is `[7, 7]`, refuting removal-on-selection
regardless of the eligibility outcome. -/
theorem draw_discarded_selection_repicked :
    (drawGo cg2 "g2" entries2 members2 0 pick0 0 2 initDraw).picked =
      [7, 7] ∧
    ¬ (drawGo cg2 "g2" entries2 members2 0 pick0 0 2 initDraw).picked.Nodup
    := by
  constructor
  · rfl
  · intro h
    rw [show (drawGo cg2 "g2" entries2 members2 0 pick0 0 2 initDraw).picked =
      [7, 7] from rfl] at h
    exact absurd h (by decide)

/-- C2 amended: a selected participant is removed from the working pool
(added to `selected_users`) exactly when the draw-time re-check accepts
them as a winner; discarded selections stay in the pool.  Formally, if
the removed-set equals the accepted winners' ids on entry to the loop,
it still does on exit. -/
theorem draw_selected_removed_iff_accepted (g : Giveaway) (gid : String)
    (entries : List EntryRow) (members : Nat → Option Member) (now : Int)
    (pick : Nat → Nat) (position fuel : Nat) (st : DrawState)
    (h : st.selected = (st.winnerRows.map fun w => w.user_id).reverse) :
    (drawGo g gid entries members now pick position fuel st).selected =
      ((drawGo g gid entries members now pick position fuel st).winnerRows.map
        fun w => w.user_id).reverse := by
  induction fuel generalizing position st with
  | zero => exact h
  | succ n ih =>
    rw [drawGo]
    dsimp only
    split
    · exact h
    · split
      · exact h
      · split
        · exact ih _ _ h
        · split
          · exact h
          · split
            · apply ih
              simp [h]
            · exact ih _ _ h

/-- Witness for `draw_selected_removed_iff_accepted` on the concrete
two-entrant draw. -/
theorem draw_selected_removed_iff_accepted_witness :
    (drawGo cg2 "g2" entries2 members2 0 pickIdx 0 2 initDraw).selected =
      ((drawGo cg2 "g2" entries2 members2 0 pickIdx 0 2
        initDraw).winnerRows.map fun w => w.user_id).reverse :=
  draw_selected_removed_iff_accepted cg2 "g2" entries2 members2 0 pickIdx
    0 2 initDraw rfl

/-- The positions of a giveaway's winner rows are a contiguous sequence
starting at 1. -/
def contiguousFromOne (ps : List Nat) : Prop :=
  ps = List.range' 1 ps.length

/-- C3 counterexample: user 7 is sampled at iteration 0 and discarded
as ineligible; user 8 is sampled at iteration 1 and accepted.  The
discarded selection *does* consume a position and a prize: the single
stored row has position 2 (so the positions `[2]` are not contiguous
from 1) and prize "P2", not the first prize. -/
theorem draw_positions_not_contiguous :
    cg2.prizes = ["P1", "P2"] ∧
    ((drawGo cg2 "g2" entries2 members2 0 pickIdx 0 2 initDraw).winnerRows.map
      fun w => w.position) = [2] ∧
    ((drawGo cg2 "g2" entries2 members2 0 pickIdx 0 2 initDraw).winnerRows.map
      fun w => w.prize) = ["P2"] ∧
    ¬ contiguousFromOne
      ((drawGo cg2 "g2" entries2 members2 0 pickIdx 0 2
        initDraw).winnerRows.map fun w => w.position) := by
  refine ⟨rfl, rfl, rfl, ?_⟩
  intro h
  unfold contiguousFromOne at h
  rw [show ((drawGo cg2 "g2" entries2 members2 0 pickIdx 0 2
    initDraw).winnerRows.map fun w => w.position) = [2] from rfl] at h
  exact absurd h (by decide)

theorem drawGo_rows_invariant (g : Giveaway) (gid : String)
    (entries : List EntryRow) (members : Nat → Option Member) (now : Int)
    (pick : Nat → Nat) :
    ∀ (fuel position : Nat) (st : DrawState),
    (∀ w ∈ st.winnerRows, 1 ≤ w.position ∧ w.position ≤ position ∧
      drawPrize g.prizes (w.position - 1) = some w.prize) →
    List.Pairwise (fun a b : Nat => a < b)
      (st.winnerRows.map fun w => w.position) →
    (∀ w ∈ (drawGo g gid entries members now pick position fuel st).winnerRows,
      1 ≤ w.position ∧ w.position ≤ position + fuel ∧
      drawPrize g.prizes (w.position - 1) = some w.prize) ∧
    List.Pairwise (fun a b : Nat => a < b)
      ((drawGo g gid entries members now pick position fuel st).winnerRows.map
        fun w => w.position) := by
  intro fuel
  induction fuel with
  | zero =>
    intro position st hb hp
    exact ⟨fun w hw => (hb w hw), hp⟩
  | succ n ih =>
    intro position st hb hp
    rw [drawGo]
    dsimp only
    have hweak : ∀ w ∈ st.winnerRows, 1 ≤ w.position ∧
        w.position ≤ position + (n + 1) ∧
        drawPrize g.prizes (w.position - 1) = some w.prize := by
      intro w hw
      obtain ⟨h1, h2, h3⟩ := hb w hw
      exact ⟨h1, by omega, h3⟩
    split
    · exact ⟨hweak, hp⟩
    · split
      · exact ⟨hweak, hp⟩
      · rename_i prize heqp
        split
        · rw [show position + (n + 1) = (position + 1) + n from by omega]
          refine ih (position + 1) _ ?_ hp
          intro w hw
          obtain ⟨h1, h2, h3⟩ := hb w hw
          exact ⟨h1, by omega, h3⟩
        · rename_i u hequ
          split
          · exact ⟨hweak, hp⟩
          · rename_i elig s heqc
            split
            · rename_i helig
              rw [show position + (n + 1) = (position + 1) + n from by omega]
              refine ih (position + 1) _ ?_ ?_
              · intro w hw
                rcases List.mem_append.mp hw with hw | hw
                · obtain ⟨h1, h2, h3⟩ := hb w hw
                  exact ⟨h1, by omega, h3⟩
                · rcases List.mem_singleton.mp hw with rfl
                  refine ⟨Nat.le_add_left 1 position, le_refl _, ?_⟩
                  simpa using heqp
              · dsimp only
                rw [List.map_append, List.pairwise_append]
                refine ⟨hp, by simp, ?_⟩
                intro a ha b hbm
                rcases List.mem_map.mp ha with ⟨w, hw, rfl⟩
                simp only [List.map_cons, List.map_nil,
                  List.mem_singleton] at hbm
                subst hbm
                have := (hb w hw).2.1
                omega
            · rw [show position + (n + 1) = (position + 1) + n from by omega]
              refine ih (position + 1) _ ?_ hp
              intro w hw
              obtain ⟨h1, h2, h3⟩ := hb w hw
              exact ⟨h1, by omega, h3⟩

/-- C3 amended: the winner-store positions of a single draw are the
1-based loop-iteration indices at which a selection was *accepted*:
strictly increasing and within `[1, target]`, but not necessarily
contiguous, because a selection discarded as ineligible consumes its
iteration's position and prize.  The row recorded at position `p`
carries the prize of slot `p - 1` (`prizes[p-1]`, falling back to the
last prize when `p - 1` is out of range) rather than the prize indexed
by the accepted-winner count. -/
theorem draw_positions_strict_increasing_prize_by_slot (g : Giveaway)
    (gid : String) (entries : List EntryRow)
    (members : Nat → Option Member) (now : Int) (pick : Nat → Nat)
    (fuel : Nat) :
    (∀ w ∈ (drawGo g gid entries members now pick 0 fuel initDraw).winnerRows,
      1 ≤ w.position ∧ w.position ≤ fuel ∧
      drawPrize g.prizes (w.position - 1) = some w.prize) ∧
    List.Pairwise (fun a b : Nat => a < b)
      ((drawGo g gid entries members now pick 0 fuel initDraw).winnerRows.map
        fun w => w.position) := by
  have h := drawGo_rows_invariant g gid entries members now pick fuel 0
    initDraw (by intro w hw; simp [initDraw] at hw) (by simp [initDraw])
  simpa using h

theorem drawGo_rows_length_le (g : Giveaway) (gid : String)
    (entries : List EntryRow) (members : Nat → Option Member) (now : Int)
    (pick : Nat → Nat) :
    ∀ (fuel position : Nat) (st : DrawState),
    (drawGo g gid entries members now pick position fuel st).winnerRows.length
      ≤ st.winnerRows.length + fuel := by
  intro fuel
  induction fuel with
  | zero => intro position st; simp [drawGo]
  | succ n ih =>
    intro position st
    rw [drawGo]
    dsimp only
    split
    · omega
    · split
      · dsimp only; omega
      · split
        · refine le_trans (ih (position + 1) _) ?_
          dsimp only
          omega
        · split
          · dsimp only; omega
          · split
            · refine le_trans (ih (position + 1) _) ?_
              dsimp only
              simp only [List.length_append, List.length_cons,
                List.length_nil]
              omega
            · refine le_trans (ih (position + 1) _) ?_
              dsimp only
              omega

/-- Draw-time eligibility of a user id: the member lookup
(`guild.get_member`) succeeds and `check_eligibility` returns
`(True, _)`. -/
def eligAt (g : Giveaway) (members : Nat → Option Member) (now : Int)
    (uid : Nat) : Bool :=
  match members uid with
  | none => false
  | some u =>
    match check_eligibility now u g with
    | .ok (true, _) => true
    | _ => false

theorem nodup_subset_length_le {l m : List Nat} (hl : l.Nodup)
    (hsub : ∀ x ∈ l, x ∈ m) : l.length ≤ m.length := by
  calc l.length = l.toFinset.card := (List.toFinset_card_of_nodup hl).symm
    _ ≤ m.toFinset.card := by
        apply Finset.card_le_card
        intro x hx
        exact List.mem_toFinset.mpr (hsub x (List.mem_toFinset.mp hx))
    _ ≤ m.length := List.toFinset_card_le m

theorem drawGo_winners_invariant (g : Giveaway) (gid : String)
    (entries : List EntryRow) (members : Nat → Option Member) (now : Int)
    (pick : Nat → Nat) :
    ∀ (fuel position : Nat) (st : DrawState),
    ((st.winnerRows.map fun w => w.user_id).Nodup ∧
      (∀ w ∈ st.winnerRows, w.user_id ∈ st.selected) ∧
      (∀ w ∈ st.winnerRows, w.giveaway_id = gid ∧
        eligAt g members now w.user_id = true ∧
        w.user_id ∈ entries.map fun e => e.user_id)) →
    (((drawGo g gid entries members now pick position fuel st).winnerRows.map
        fun w => w.user_id).Nodup ∧
      (∀ w ∈ (drawGo g gid entries members now pick position
          fuel st).winnerRows,
        w.user_id ∈ (drawGo g gid entries members now pick position
          fuel st).selected) ∧
      (∀ w ∈ (drawGo g gid entries members now pick position
          fuel st).winnerRows,
        w.giveaway_id = gid ∧
        eligAt g members now w.user_id = true ∧
        w.user_id ∈ entries.map fun e => e.user_id)) := by
  intro fuel
  induction fuel with
  | zero => intro position st hinv; exact hinv
  | succ n ih =>
    intro position st hinv
    obtain ⟨hnd, hsub, hmisc⟩ := hinv
    rw [drawGo]
    dsimp only
    split
    · exact ⟨hnd, hsub, hmisc⟩
    · rename_i hpoolne
      have hne : (entries.filter fun e => !st.selected.contains e.user_id)
          ≠ [] := by
        intro hc
        exact hpoolne (by rw [hc]; rfl)
      have hlen : 0 <
          (entries.filter fun e => !st.selected.contains e.user_id).length :=
        List.length_pos.mpr hne
      have hidx : pick position %
          (entries.filter fun e => !st.selected.contains e.user_id).length <
          (entries.filter fun e => !st.selected.contains e.user_id).length :=
        Nat.mod_lt _ hlen
      have hmem : (entries.filter fun e =>
            !st.selected.contains e.user_id).getD
            (pick position % (entries.filter fun e =>
              !st.selected.contains e.user_id).length) defaultEntry ∈
          entries.filter fun e => !st.selected.contains e.user_id := by
        rw [List.getD_eq_get _ _ hidx]
        exact List.get_mem _ _ _
      have hment := List.mem_filter.mp hmem
      have hnotsel : ((entries.filter fun e =>
            !st.selected.contains e.user_id).getD
            (pick position % (entries.filter fun e =>
              !st.selected.contains e.user_id).length)
            defaultEntry).user_id ∉ st.selected := by
        simpa using hment.2
      split
      · exact ⟨hnd, hsub, hmisc⟩
      · rename_i prize heqp
        split
        · refine ih (position + 1) _ ?_
          exact ⟨hnd, hsub, hmisc⟩
        · rename_i u hequ
          split
          · exact ⟨hnd, hsub, hmisc⟩
          · rename_i elig s heqc
            split
            · rename_i helig
              subst helig
              refine ih (position + 1) _ ?_
              dsimp only
              refine ⟨?_, ?_, ?_⟩
              · rw [List.map_append]
                refine List.Nodup.append hnd (by simp) ?_
                rw [List.map_singleton, List.disjoint_singleton]
                intro hc
                rcases List.mem_map.mp hc with ⟨w, hw, hwid⟩
                dsimp only at hwid
                apply hnotsel
                rw [← hwid]
                exact hsub w hw
              · intro w hw
                rcases List.mem_append.mp hw with hw | hw
                · exact List.mem_cons_of_mem _ (hsub w hw)
                · rcases List.mem_singleton.mp hw with rfl
                  exact List.mem_cons_self _ _
              · intro w hw
                rcases List.mem_append.mp hw with hw | hw
                · exact hmisc w hw
                · rcases List.mem_singleton.mp hw with rfl
                  refine ⟨rfl, ?_, ?_⟩
                  · simp only [eligAt, hequ, heqc]
                  · exact List.mem_map_of_mem _ hment.1
            · refine ih (position + 1) _ ?_
              exact ⟨hnd, hsub, hmisc⟩

theorem get_winners_append_rows (db1 : DB) (gid : String)
    (rows : List WinnerRow) (hfresh : get_winners db1 gid = [])
    (hrows : ∀ w ∈ rows, w.giveaway_id = gid) :
    get_winners { db1 with winners := db1.winners ++ rows } gid = rows := by
  unfold get_winners
  dsimp only
  rw [List.filter_append]
  rw [show db1.winners.filter (fun w => w.giveaway_id == gid) = []
    from hfresh]
  rw [List.filter_eq_self.mpr (fun w hw => by simp [hrows w hw])]
  simp

/-- C8: for a giveaway with no pre-existing winner rows, after a draw
the stored Winner rows for it contain no participant twice, number at
most `winner_count`, and number at most the count of distinct entrants
who are eligible at draw time — for every behaviour of the sampler. -/
theorem end_giveaway_winner_bounds (db : DB) (gid : String)
    (members : Nat → Option Member) (now : Int) (pick : Nat → Nat)
    (g : Giveaway) (hget : get_giveaway db gid = some g)
    (hfresh : get_winners db gid = []) :
    ((get_winners (end_giveaway db gid members now pick) gid).map
      fun w => w.user_id).Nodup ∧
    (get_winners (end_giveaway db gid members now pick) gid).length ≤
      g.winner_count ∧
    (get_winners (end_giveaway db gid members now pick) gid).length ≤
      (((get_entries db gid).map fun e => e.user_id).dedup.filter
        (eligAt g members now)).length := by
  unfold end_giveaway
  rw [hget]
  dsimp only
  by_cases hstat : (g.status == "ended") = true
  · rw [if_pos hstat, hfresh]
    simp
  · rw [if_neg hstat]
    by_cases hemp :
        (get_entries (update_status_ended db gid) gid).isEmpty = true
    · rw [if_pos hemp]
      rw [show get_winners (update_status_ended db gid) gid = [] from hfresh]
      simp
    · rw [if_neg hemp]
      have hinv := drawGo_winners_invariant g gid
        (get_entries (update_status_ended db gid) gid) members now pick
        (min g.winner_count
          (((get_entries (update_status_ended db gid) gid).map
            fun e => e.user_id).dedup).length) 0 initDraw
        ⟨by simp [initDraw], by intro w hw; simp [initDraw] at hw,
          by intro w hw; simp [initDraw] at hw⟩
      rw [get_winners_append_rows (update_status_ended db gid) gid _
        hfresh (fun w hw => (hinv.2.2 w hw).1)]
      refine ⟨hinv.1, ?_, ?_⟩
      · have hlen := drawGo_rows_length_le g gid
          (get_entries (update_status_ended db gid) gid) members now pick
          (min g.winner_count
            (((get_entries (update_status_ended db gid) gid).map
              fun e => e.user_id).dedup).length) 0 initDraw
        simp only [initDraw, List.length_nil, Nat.zero_add] at hlen
        exact le_trans hlen (min_le_left _ _)
      · rw [← List.length_map _ fun w => w.user_id]
        apply nodup_subset_length_le hinv.1
        intro x hx
        rcases List.mem_map.mp hx with ⟨w, hw, rfl⟩
        apply List.mem_filter.mpr
        refine ⟨?_, (hinv.2.2 w hw).2.1⟩
        exact List.mem_dedup.mpr (hinv.2.2 w hw).2.2

/-- Store for exercising the draw bounds: the `g2` giveaway with its
two entries and no prior winner rows. -/
def db8 : DB := ⟨[cg2], entries2, []⟩

/-- Witness for `end_giveaway_winner_bounds` on the concrete store. -/
theorem end_giveaway_winner_bounds_witness :
    ((get_winners (end_giveaway db8 "g2" members2 0 pick0) "g2").map
      fun w => w.user_id).Nodup ∧
    (get_winners (end_giveaway db8 "g2" members2 0 pick0) "g2").length ≤
      cg2.winner_count ∧
    (get_winners (end_giveaway db8 "g2" members2 0 pick0) "g2").length ≤
      (((get_entries db8 "g2").map fun e => e.user_id).dedup.filter
        (eligAt cg2 members2 0)).length :=
  end_giveaway_winner_bounds db8 "g2" members2 0 pick0 cg2 rfl rfl

/-- C9: giveaway creation validates synchronously and persists nothing
on rejection.  In source order: a missing (or empty) title, then a
duration outside [1, 10080] minutes, then a winner count outside
[1, 10], each return the specific user-facing reason with the store
untouched; when all validations pass, exactly the new giveaway row is
appended. -/
theorem start_giveaway_validation (db : DB) (gid : String)
    (guild ch creator : Nat) (dm wc : Int) (title : Option String) :
    ((title = none ∨ title = some "") →
      start_giveaway db gid guild ch creator dm wc title =
        (db, .rejected "Please provide a title for the giveaway.")) ∧
    (¬ (title = none ∨ title = some "") → (dm < 1 ∨ dm > 10080) →
      start_giveaway db gid guild ch creator dm wc title =
        (db, .rejected "Duration must be between 1 and 10080 minutes.")) ∧
    (¬ (title = none ∨ title = some "") → ¬ (dm < 1 ∨ dm > 10080) →
      (wc < 1 ∨ wc > 10) →
      start_giveaway db gid guild ch creator dm wc title =
        (db, .rejected "Winner count must be between 1 and 10.")) ∧
    (¬ (title = none ∨ title = some "") → ¬ (dm < 1 ∨ dm > 10080) →
      ¬ (wc < 1 ∨ wc > 10) →
      start_giveaway db gid guild ch creator dm wc title =
        ({ db with giveaways := db.giveaways ++
          [start_stored gid guild ch creator (title.getD "") wc.toNat] },
          .started)) := by
  refine ⟨?_, ?_, ?_, ?_⟩
  · intro h1
    unfold start_giveaway
    rw [if_pos h1]
  · intro h1 h2
    unfold start_giveaway
    rw [if_neg h1, if_pos h2]
  · intro h1 h2 h3
    unfold start_giveaway
    rw [if_neg h1, if_neg h2, if_pos h3]
  · intro h1 h2 h3
    unfold start_giveaway
    rw [if_neg h1, if_neg h2, if_neg h3]

/-- Witness for `start_giveaway_validation`: a missing title is
rejected with the title reason and the empty store is untouched. -/
theorem start_giveaway_validation_witness :
    start_giveaway ⟨[], [], []⟩ "g9" 1 1 1 5 1 none =
      (⟨[], [], []⟩, .rejected "Please provide a title for the giveaway.") :=
  (start_giveaway_validation ⟨[], [], []⟩ "g9" 1 1 1 5 1 none).1
    (Or.inl rfl)

theorem drawGo_prize_title (g : Giveaway) (gid : String)
    (entries : List EntryRow) (members : Nat → Option Member) (now : Int)
    (pick : Nat → Nat) (t : String) (hall : ∀ p ∈ g.prizes, p = t) :
    ∀ (fuel position : Nat) (st : DrawState),
    position + fuel ≤ g.prizes.length →
    (∀ w ∈ st.winnerRows, w.prize = t) →
    ∀ w ∈ (drawGo g gid entries members now pick position fuel st).winnerRows,
      w.prize = t := by
  intro fuel
  induction fuel with
  | zero => intro position st _ hrows; exact hrows
  | succ n ih =>
    intro position st hb hrows
    rw [drawGo]
    dsimp only
    split
    · exact hrows
    · split
      · exact hrows
      · rename_i prize heqp
        have hlt : position < g.prizes.length := by omega
        have hpr : prize = t := by
          unfold drawPrize at heqp
          rw [if_pos hlt] at heqp
          have hgd := Option.some.inj heqp
          have hmemp : g.prizes.getD position "" ∈ g.prizes := by
            rw [List.getD_eq_getElem _ _ hlt]
            exact List.getElem_mem hlt
          rw [← hgd]
          exact hall _ hmemp
        split
        · exact ih (position + 1) _ (by omega) hrows
        · rename_i u hequ
          split
          · exact hrows
          · rename_i elig s heqc
            split
            · refine ih (position + 1) _ (by omega) ?_
              intro w hw
              rcases List.mem_append.mp hw with hw | hw
              · exact hrows w hw
              · rcases List.mem_singleton.mp hw with rfl
                exact hpr
            · exact ih (position + 1) _ (by omega) hrows

/-- C10: a giveaway created through the `start` command stores prizes
`[title] * winner_count`: the prize list length equals the winner
count, every prize equals the title, the draw's slot index
(`min(winner_count, #distinct entrants)`) can never exceed the prize
list length (so the repeat-the-final-prize fallback is unreachable),
and every winner row a subsequent draw stores for it carries the title
as its prize. -/
theorem start_prizes_replicate_title (db : DB) (gid : String)
    (guild ch creator : Nat) (dm wc : Int) (title : String)
    (members : Nat → Option Member) (now : Int) (pick : Nat → Nat)
    (htitle : title ≠ "") (hdm1 : 1 ≤ dm) (hdm2 : dm ≤ 10080)
    (hwc1 : 1 ≤ wc) (hwc2 : wc ≤ 10)
    (hnew : ∀ g0 ∈ db.giveaways, g0.giveaway_id ≠ gid)
    (hfresh : get_winners db gid = []) :
    (start_giveaway db gid guild ch creator dm wc (some title)).2 =
      StartOutcome.started ∧
    get_giveaway (start_giveaway db gid guild ch creator dm wc
        (some title)).1 gid =
      some (start_stored gid guild ch creator title wc.toNat) ∧
    (start_stored gid guild ch creator title wc.toNat).prizes =
      List.replicate
        (start_stored gid guild ch creator title wc.toNat).winner_count
        (start_stored gid guild ch creator title wc.toNat).title ∧
    (∀ p ∈ (start_stored gid guild ch creator title wc.toNat).prizes,
      p = title) ∧
    (∀ d : Nat,
      min (start_stored gid guild ch creator title wc.toNat).winner_count d
        ≤ (start_stored gid guild ch creator title wc.toNat).prizes.length) ∧
    (∀ w ∈ get_winners
        (end_giveaway
          (start_giveaway db gid guild ch creator dm wc (some title)).1
          gid members now pick) gid,
      w.prize = title) := by
  have hc1 : ¬ ((some title : Option String) = none ∨
      (some title : Option String) = some "") := by
    simp [htitle]
  have hc2 : ¬ (dm < 1 ∨ dm > 10080) := by omega
  have hc3 : ¬ (wc < 1 ∨ wc > 10) := by omega
  have hstart : start_giveaway db gid guild ch creator dm wc (some title) =
      ({ db with giveaways := db.giveaways ++
        [start_stored gid guild ch creator title wc.toNat] },
        .started) := by
    unfold start_giveaway
    rw [if_neg hc1, if_neg hc2, if_neg hc3]
    rfl
  have hfind : db.giveaways.find? (fun g0 => g0.giveaway_id == gid) =
      none :=
    List.find?_eq_none.mpr fun x hx => by simp [hnew x hx]
  have hggL : get_giveaway { db with giveaways := db.giveaways ++
      [start_stored gid guild ch creator title wc.toNat] } gid =
      some (start_stored gid guild ch creator title wc.toNat) := by
    unfold get_giveaway
    dsimp only
    rw [List.find?_append, hfind]
    rw [List.find?_cons_of_pos _ (by simp [start_stored])]
    rfl
  refine ⟨by rw [hstart], by rw [hstart]; exact hggL, rfl, ?_, ?_, ?_⟩
  · intro p hp
    exact List.eq_of_mem_replicate hp
  · intro d
    simp only [start_stored, List.length_replicate]
    omega
  · intro w hw
    rw [hstart] at hw
    dsimp only at hw
    rw [show end_giveaway { db with giveaways := db.giveaways ++
        [start_stored gid guild ch creator title wc.toNat] } gid members
        now pick =
      (match get_giveaway { db with giveaways := db.giveaways ++
          [start_stored gid guild ch creator title wc.toNat] } gid with
        | none => { db with giveaways := db.giveaways ++
            [start_stored gid guild ch creator title wc.toNat] }
        | some g =>
          if g.status == "ended" then
            { db with giveaways := db.giveaways ++
              [start_stored gid guild ch creator title wc.toNat] }
          else
            let db1 := update_status_ended { db with giveaways :=
              db.giveaways ++
              [start_stored gid guild ch creator title wc.toNat] } gid
            let entries := get_entries db1 gid
            if entries.isEmpty then db1
            else
              let target := min g.winner_count
                ((entries.map fun e => e.user_id).dedup).length
              let res := drawGo g gid entries members now pick 0 target
                initDraw
              { db1 with winners := db1.winners ++ res.winnerRows })
      from rfl] at hw
    rw [hggL] at hw
    dsimp only at hw
    rw [if_neg (show ¬ ((start_stored gid guild ch creator title
        wc.toNat).status == "ended") = true by
      rw [show (start_stored gid guild ch creator title wc.toNat).status =
        "active" from rfl]
      decide)] at hw
    by_cases hemp : (get_entries (update_status_ended { db with
        giveaways := db.giveaways ++
        [start_stored gid guild ch creator title wc.toNat] } gid)
        gid).isEmpty = true
    · rw [if_pos hemp] at hw
      rw [show get_winners (update_status_ended { db with giveaways :=
          db.giveaways ++
          [start_stored gid guild ch creator title wc.toNat] } gid) gid =
        ([] : List WinnerRow) from hfresh] at hw
      cases hw
    · rw [if_neg hemp] at hw
      have hinvL := drawGo_winners_invariant
        (start_stored gid guild ch creator title wc.toNat) gid
        (get_entries (update_status_ended { db with giveaways :=
          db.giveaways ++
          [start_stored gid guild ch creator title wc.toNat] } gid) gid)
        members now pick
        (min (start_stored gid guild ch creator title wc.toNat).winner_count
          (((get_entries (update_status_ended { db with giveaways :=
            db.giveaways ++
            [start_stored gid guild ch creator title wc.toNat] } gid)
            gid).map fun e => e.user_id).dedup).length) 0 initDraw
        ⟨by simp [initDraw], by intro v hv; simp [initDraw] at hv,
          by intro v hv; simp [initDraw] at hv⟩
      rw [get_winners_append_rows
        (update_status_ended { db with giveaways := db.giveaways ++
          [start_stored gid guild ch creator title wc.toNat] } gid) gid _
        (show get_winners (update_status_ended { db with giveaways :=
          db.giveaways ++
          [start_stored gid guild ch creator title wc.toNat] } gid) gid =
          [] from hfresh)
        (fun v hv => (hinvL.2.2 v hv).1)] at hw
      refine drawGo_prize_title
        (start_stored gid guild ch creator title wc.toNat) gid _ members
        now pick title ?_ _ 0 initDraw ?_ ?_ w hw
      · intro p hp
        exact List.eq_of_mem_replicate hp
      · simp only [start_stored, List.length_replicate]
        omega
      · intro v hv
        simp [initDraw] at hv

/-- Store for exercising a started giveaway: no giveaways yet, one
pre-seeded entry row for the id about to be used, no winners. -/
def db10 : DB := ⟨[], [⟨"gX", 7, 1⟩], []⟩

/-- Witness for `start_prizes_replicate_title` on a concrete started
giveaway with two winners and title "T". -/
theorem start_prizes_replicate_title_witness :
    (start_giveaway db10 "gX" 1 1 1 5 2 (some "T")).2 =
      StartOutcome.started ∧
    get_giveaway (start_giveaway db10 "gX" 1 1 1 5 2 (some "T")).1 "gX" =
      some (start_stored "gX" 1 1 1 "T" (2 : Int).toNat) ∧
    (start_stored "gX" 1 1 1 "T" (2 : Int).toNat).prizes =
      List.replicate (start_stored "gX" 1 1 1 "T" (2 : Int).toNat).winner_count
        (start_stored "gX" 1 1 1 "T" (2 : Int).toNat).title ∧
    (∀ p ∈ (start_stored "gX" 1 1 1 "T" (2 : Int).toNat).prizes, p = "T") ∧
    (∀ d : Nat,
      min (start_stored "gX" 1 1 1 "T" (2 : Int).toNat).winner_count d ≤
        (start_stored "gX" 1 1 1 "T" (2 : Int).toNat).prizes.length) ∧
    (∀ w ∈ get_winners
        (end_giveaway (start_giveaway db10 "gX" 1 1 1 5 2 (some "T")).1
          "gX" members2 0 pick0) "gX",
      w.prize = "T") :=
  start_prizes_replicate_title db10 "gX" 1 1 1 5 2 "T" members2 0 pick0
    (by decide) (by decide) (by decide) (by decide) (by decide)
    (fun g0 h => absurd h (List.not_mem_nil g0)) rfl

/-- Witness for `draw_positions_strict_increasing_prize_by_slot` on the
concrete two-entrant draw with a discarded first selection. -/
theorem draw_positions_strict_increasing_prize_by_slot_witness :
    (∀ w ∈ (drawGo cg2 "g2" entries2 members2 0 pickIdx 0 2
        initDraw).winnerRows,
      1 ≤ w.position ∧ w.position ≤ 2 ∧
      drawPrize cg2.prizes (w.position - 1) = some w.prize) ∧
    List.Pairwise (fun a b : Nat => a < b)
      ((drawGo cg2 "g2" entries2 members2 0 pickIdx 0 2
        initDraw).winnerRows.map fun w => w.position) :=
  draw_positions_strict_increasing_prize_by_slot cg2 "g2" entries2
    members2 0 pickIdx 2
